import Mathlib

/-!
Shallow embedding of the WebP batch image converter
(src/pages/index.tsx and its variant src/unnamed/part_000; the two files
share the conversion pipeline verbatim).

Modelling conventions:
* JavaScript numbers are modelled as exact rationals (`ℚ`); byte sizes are
  naturals.  The IEEE edge cases that the code can actually reach — `0/0`
  rendered as "NaN" and a negative numerator over zero rendered as
  "-Infinity" — are modelled explicitly in `jsRatioFixed1`.
* The rational-valued expressions of the source are written in the
  executable normal form `mkRat`; the lemmas `progressValue_eq_div`,
  `ratioValue_eq_div` and `qualityFraction_eq_div` certify that they equal
  the literal division expressions of the source.
* The external codec (`Image` decode plus `canvas.toBlob` encode) is an
  oracle `Codec`: given the source file and the quality fraction passed to
  `toBlob`, it yields the encoded blob size, or `none` when decode or
  encode fails.
* The promise created by `convertToWebP` is modelled by `PromiseState`:
  the executor in the source only ever calls `resolve`, so the promise is
  either resolved or pending forever; there is no rejection path.
* React state updates (`setProgress`, `setConvertedFiles`, ...) are modelled
  as a trace of observable `AppState` snapshots, one per `set*` call.
* `Math.floor(Math.log(bytes) / Math.log(1024))` in `formatFileSize` is
  modelled by the exact integer logarithm `Nat.log 1024 bytes`.
-/

namespace WebP

/-- A browser `File` object as the converter sees it: name, declared MIME
type and byte size.  Pixel contents are irrelevant to the control logic and
enter only through the codec oracle. -/
structure JsFile where
  name : String
  type : String
  size : Nat
deriving DecidableEq

/-- Outcome of the `Promise` constructed in `convertToWebP`
(src/pages/index.tsx lines 37-74).  The executor only calls `resolve`:
when the image fails to decode (`img.onload` never fires) or
`canvas.toBlob` produces no blob (`if (!blob) return;`), the promise stays
pending forever.  There is no rejection constructor because the source has
no rejection path. -/
inductive PromiseState (α : Type) where
  | resolved (value : α)
  | pending
deriving DecidableEq

/-- True exactly when the promise resolved. -/
def PromiseState.isResolved {α : Type} : PromiseState α → Bool
  | PromiseState.resolved _ => true
  | PromiseState.pending => false

/-- Decimal digits of a natural number, by fuel-bounded structural
recursion (the fuel `n + 1` always suffices since the argument shrinks by a
factor of ten each step). -/
def natToStringAux : Nat → Nat → List Char
  | 0, _ => []
  | fuel + 1, n =>
      if n < 10 then [Nat.digitChar n]
      else natToStringAux fuel (n / 10) ++ [Nat.digitChar (n % 10)]

/-- Decimal rendering of a natural number, as JavaScript renders an
integral number value. -/
def natToString (n : Nat) : String := String.mk (natToStringAux (n + 1) n)

/-- Numerator of the tenths rounding of the nonnegative value `num / den`
(`den > 0`): the floor of `num / den * 10 + 1/2`, computed in integer
arithmetic. -/
def roundTenths (num : Int) (den : Nat) : Nat :=
  ((num * 20 + (den : Int)) / (2 * (den : Int))).toNat

/-- Rendering of `toFixed(1)` for the nonnegative value `num / den`. -/
def toFixed1Num (num : Int) (den : Nat) : String :=
  natToString (roundTenths num den / 10) ++ "." ++
    natToString (roundTenths num den % 10)

/-- JavaScript `x.toFixed(1)` with the number modelled as an exact
rational: round half away from zero to one decimal digit and print with
one digit after the point. -/
def toFixed1 (q : ℚ) : String :=
  if q < 0 then "-" ++ toFixed1Num (-q.num) q.den else toFixed1Num q.num q.den

/-- The exact value of the JavaScript expression
`(orig - conv) / orig * 100` (src/pages/index.tsx lines 67 and 141),
written in the executable form `mkRat`. -/
def ratioValue (orig conv : Nat) : ℚ :=
  mkRat (((orig : Int) - (conv : Int)) * 100) orig

/-- Model of `((orig - conv) / orig * 100).toFixed(1)`
(src/pages/index.tsx lines 67 and 141).  The IEEE edge cases at
`orig = 0` are kept: `0/0` is NaN and a negative numerator over zero is
`-Infinity`, which `toFixed` renders as the strings "NaN" and
"-Infinity". -/
def jsRatioFixed1 (orig conv : Nat) : String :=
  if orig = 0 then
    if conv = 0 then "NaN" else "-Infinity"
  else
    toFixed1 (ratioValue orig conv)

/-- Predicate for the regex of src/pages/index.tsx line 58 matching `name`:
the name ends in a dot followed by one or more characters none of which is
a dot or a slash. -/
def hasExtMatch (name : String) : Bool :=
  let ext := name.data.reverse.takeWhile (fun c => c != '.' && c != '/')
  !ext.isEmpty && ((name.data.reverse.drop ext.length).head? == some '.')

/-- Model of the JavaScript call replacing the extension of the source
name with ".webp" (src/pages/index.tsx line 58, regex on the text after
the final dot): when the regex matches, the matched suffix (dot included)
is replaced by ".webp"; otherwise the name is returned unchanged. -/
def replaceExtWebp (name : String) : String :=
  let ext := name.data.reverse.takeWhile (fun c => c != '.' && c != '/')
  if hasExtMatch name then
    String.mk (name.data.take (name.data.length - ext.length - 1) ++ ".webp".data)
  else name

/-- Text after the final dot of a character list, when a dot occurs. -/
def extAfterLastDotChars (cs : List Char) : Option String :=
  if (cs.reverse.takeWhile (fun c => c != '.')).length < cs.length then
    some (String.mk (cs.reverse.takeWhile (fun c => c != '.')).reverse)
  else none

/-- Text after the final dot of a name, when the name contains a dot. -/
def extAfterLastDot (name : String) : Option String :=
  extAfterLastDotChars name.data

/-- Per-file conversion record (interface `ConversionResult` of
src/pages/index.tsx lines 11-17): `converted` is the `File` built from the
encoded blob with the extension-replaced name and MIME type image/webp. -/
structure ConversionResult where
  original : JsFile
  converted : JsFile
  originalSize : Nat
  convertedSize : Nat
  compressionRatio : String
deriving DecidableEq

/-- External image codec oracle: source file and quality fraction (the
value handed to `canvas.toBlob`) to encoded blob size, or `none` when
decoding or encoding fails. -/
def Codec : Type := JsFile → ℚ → Option Nat

/-- The quality fraction `quality / 100` handed to `canvas.toBlob`
(src/pages/index.tsx line 69), in executable form. -/
def qualityFraction (quality : Nat) : ℚ := mkRat quality 100

/-- Model of `convertToWebP` (src/pages/index.tsx lines 37-74).  On codec
success the promise resolves with the `ConversionResult`; on failure the
promise stays pending (the executor returns without calling `resolve`). -/
def convertToWebP (codec : Codec) (file : JsFile) (quality : Nat) :
    PromiseState ConversionResult :=
  match codec file (qualityFraction quality) with
  | none => PromiseState.pending
  | some blobSize =>
      PromiseState.resolved
        { original := file
          converted :=
            { name := replaceExtWebp file.name
              type := "image/webp"
              size := blobSize }
          originalSize := file.size
          convertedSize := blobSize
          compressionRatio := jsRatioFixed1 file.size blobSize }

/-- Working-set entry (interface `FileData` of src/pages/index.tsx lines
4-9).  The session-local id (`Math.random().toString(36).substr(2, 9)`)
and the preview URL are opaque strings supplied by oracles. -/
structure FileData where
  id : String
  file : JsFile
  size : Nat
  preview : String
deriving DecidableEq

/-- Aggregate statistics (interface `Stats` of src/pages/index.tsx lines
19-25).  `totalSavings` is an integer because converted output can exceed
the original size. -/
structure Stats where
  totalFiles : Nat
  totalOriginalSize : Nat
  totalConvertedSize : Nat
  totalSavings : Int
  compressionRatio : String
deriving DecidableEq

/-- The component's mutable state (the `useState` hooks of
src/pages/index.tsx lines 28-33). -/
structure AppState where
  files : List FileData
  converting : Bool
  convertedFiles : List ConversionResult
  quality : Nat
  progress : ℚ
  stats : Option Stats
deriving DecidableEq

/-- Model of the JavaScript `String.prototype.startsWith`. -/
def strStartsWith (s p : String) : Bool := s.data.take p.data.length == p.data

/-- Model of the JavaScript `String.prototype.endsWith`. -/
def strEndsWith (s p : String) : Bool :=
  s.data.reverse.take p.data.length == p.data.reverse

/-- Model of the JavaScript `String.prototype.toLowerCase`. -/
def strToLower (s : String) : String := String.mk (s.data.map Char.toLower)

/-- Predicate of the acceptance filter (src/pages/index.tsx line 81):
declared MIME type starts with "image/" and the lower-cased name does not
end with ".webp". -/
def acceptFile (f : JsFile) : Bool :=
  strStartsWith f.type "image/" && !(strEndsWith (strToLower f.name) ".webp")

/-- Model of `handleFileSelect` (src/pages/index.tsx lines 77-92): a null
file list is ignored; otherwise the selected files are filtered by
`acceptFile`, wrapped into `FileData` with oracle-supplied ids and
previews, and appended to the working set. -/
def handleFileSelect (s : AppState) (selectedFiles : Option (List JsFile))
    (mkId : Nat → String) (mkPreview : JsFile → String) : AppState :=
  match selectedFiles with
  | none => s
  | some selected =>
      let imageFiles := selected.filter acceptFile
      let fileData := imageFiles.enum.map (fun p =>
        ({ id := mkId p.1, file := p.2, size := p.2.size,
           preview := mkPreview p.2 } : FileData))
      { s with files := s.files ++ fileData }

/-- Model of `removeFile` (src/pages/index.tsx lines 106-108). -/
def removeFile (s : AppState) (fileId : String) : AppState :=
  { s with files := s.files.filter (fun f => f.id != fileId) }

/-- The exact value of the JavaScript expression
`((i + 1) / files.length) * 100` (src/pages/index.tsx line 129), in
executable form. -/
def progressValue (i n : Nat) : ℚ := mkRat ((i + 1) * 100) n

/-- Everything a run of `convertAllFiles` leaves observable: the trace of
state snapshots (one per `set*` call), the last observable state, whether
the loop ran to completion (a pending per-item promise blocks the `await`
forever), the `results` accumulator and the two running totals. -/
structure RunOut where
  trace : List AppState
  final : AppState
  completed : Bool
  results : List ConversionResult
  totalOriginalSize : Nat
  totalConvertedSize : Nat
deriving DecidableEq

/-- Model of the for-loop of `convertAllFiles` (src/pages/index.tsx lines
122-134).  `n` is `files.length`, `i` the loop index.  A resolved
conversion pushes the result, adds the sizes to the running totals, then
emits the `setProgress(((i + 1) / files.length) * 100)` snapshot followed
by the `setConvertedFiles(prev => [...prev, result])` snapshot.  A pending
conversion stops everything: the `await` never returns, so the loop body
after it, the remaining iterations and the code after the loop never run. -/
def convertLoop (codec : Codec) (n : Nat) (quality : Nat) :
    List JsFile → Nat → AppState → List ConversionResult → Nat → Nat → RunOut
  | [], _, s, acc, tO, tC =>
      { trace := [], final := s, completed := true, results := acc,
        totalOriginalSize := tO, totalConvertedSize := tC }
  | f :: rest, i, s, acc, tO, tC =>
      match convertToWebP codec f quality with
      | PromiseState.pending =>
          { trace := [], final := s, completed := false, results := acc,
            totalOriginalSize := tO, totalConvertedSize := tC }
      | PromiseState.resolved r =>
          let s1 : AppState := { s with progress := progressValue i n }
          let s2 : AppState := { s1 with convertedFiles := s1.convertedFiles ++ [r] }
          let out := convertLoop codec n quality rest (i + 1) s2 (acc ++ [r])
            (tO + r.originalSize) (tC + r.convertedSize)
          { out with trace := s1 :: s2 :: out.trace }

/-- Snapshot after `setConverting(true)` (src/pages/index.tsx line 114). -/
def stateA (s : AppState) : AppState := { s with converting := true }

/-- Snapshot after `setProgress(0)` (src/pages/index.tsx line 115). -/
def stateB (s : AppState) : AppState := { stateA s with progress := 0 }

/-- Snapshot after `setConvertedFiles([])` (src/pages/index.tsx line 116). -/
def stateC (s : AppState) : AppState := { stateB s with convertedFiles := [] }

/-- The loop of `convertAllFiles` started from the reset state, over the
captured `files` list with the captured `quality`. -/
def batchLoopOut (codec : Codec) (s : AppState) : RunOut :=
  convertLoop codec s.files.length s.quality (s.files.map FileData.file) 0
    (stateC s) [] 0 0

/-- The `Stats` record built by `setStats` (src/pages/index.tsx lines
136-142) from the captured file count and the loop's running totals. -/
def finishStats (s : AppState) (out : RunOut) : Stats :=
  { totalFiles := s.files.length
    totalOriginalSize := out.totalOriginalSize
    totalConvertedSize := out.totalConvertedSize
    totalSavings := (out.totalOriginalSize : Int) - (out.totalConvertedSize : Int)
    compressionRatio := jsRatioFixed1 out.totalOriginalSize out.totalConvertedSize }

/-- Model of `convertAllFiles` (src/pages/index.tsx lines 111-145).  An
empty working set returns immediately with no observable change.  Otherwise
the three reset snapshots are emitted, the loop runs, and — only if every
`await` returned — `setStats` and `setConverting(false)` run.  When some
item's promise stays pending, the run stalls: its last observable state
still has `converting = true` and the old `stats`. -/
def convertAllFilesRun (codec : Codec) (s : AppState) : RunOut :=
  if s.files.length = 0 then
    { trace := [], final := s, completed := false, results := [],
      totalOriginalSize := 0, totalConvertedSize := 0 }
  else if (batchLoopOut codec s).completed then
    { batchLoopOut codec s with
      trace := stateA s :: stateB s :: stateC s ::
        ((batchLoopOut codec s).trace ++
          [{ (batchLoopOut codec s).final with
              stats := some (finishStats s (batchLoopOut codec s)) },
           { (batchLoopOut codec s).final with
              stats := some (finishStats s (batchLoopOut codec s)),
              converting := false }]),
      final := { (batchLoopOut codec s).final with
        stats := some (finishStats s (batchLoopOut codec s)),
        converting := false } }
  else
    { batchLoopOut codec s with
      trace := stateA s :: stateB s :: stateC s :: (batchLoopOut codec s).trace }

/-- Model of a click on the convert button: the button carries
`disabled={converting}` (src/pages/index.tsx line 299), so a click while a
batch is running fires nothing; otherwise it invokes `convertAllFiles`. -/
def clickConvertRun (codec : Codec) (s : AppState) : RunOut :=
  if s.converting then
    { trace := [], final := s, completed := false, results := [],
      totalOriginalSize := 0, totalConvertedSize := 0 }
  else convertAllFilesRun codec s

/-- Sum of the `originalSize` fields of a result list. -/
def sumOriginalSizes (rs : List ConversionResult) : Nat :=
  (rs.map ConversionResult.originalSize).sum

/-- Sum of the `convertedSize` fields of a result list. -/
def sumConvertedSizes (rs : List ConversionResult) : Nat :=
  (rs.map ConversionResult.convertedSize).sum

/-- The results the loop collects: the conversions of the longest prefix of
the file list on which every promise resolves. -/
def resolvedResults (codec : Codec) (quality : Nat) :
    List JsFile → List ConversionResult
  | [] => []
  | f :: rest =>
      match convertToWebP codec f quality with
      | PromiseState.pending => []
      | PromiseState.resolved r => r :: resolvedResults codec quality rest

/-- Unit table of `formatFileSize` (src/pages/index.tsx line 170). -/
def sizesTable : List String := ["Bytes", "KB", "MB", "GB"]

/-- Numerator of the hundredths rounding of the nonnegative value
`num / den` (`den > 0`): the floor of `num / den * 100 + 1/2`. -/
def roundHundredths (num : Int) (den : Nat) : Nat :=
  ((num * 200 + (den : Int)) / (2 * (den : Int))).toNat

/-- Rendering of `parseFloat(x.toFixed(2))` followed by JavaScript
number-to-string conversion, for a nonnegative rational: round half away
from zero to two decimals, then print without trailing fractional zeros. -/
def parseFloatFixed2 (q : ℚ) : String :=
  if roundHundredths q.num q.den % 100 = 0 then
    natToString (roundHundredths q.num q.den / 100)
  else if roundHundredths q.num q.den % 10 = 0 then
    natToString (roundHundredths q.num q.den / 100) ++ "." ++
      natToString (roundHundredths q.num q.den / 10 % 10)
  else
    natToString (roundHundredths q.num q.den / 100) ++ "." ++
      natToString (roundHundredths q.num q.den / 10 % 10) ++
      natToString (roundHundredths q.num q.den % 10)

/-- Model of `formatFileSize` (src/pages/index.tsx lines 167-173).
`Math.floor(Math.log(bytes) / Math.log(1024))` is modelled by the exact
integer logarithm `Nat.log 1024 bytes`.  An out-of-bounds access
`sizes[i]` yields JavaScript `undefined`, which string concatenation
renders as "undefined"; `List.getD` with fallback "undefined" captures
exactly that. -/
def formatFileSize (bytes : Nat) : String :=
  if bytes = 0 then "0 Bytes"
  else
    parseFloatFixed2 (mkRat bytes (1024 ^ Nat.log 1024 bytes)) ++ " " ++
      sizesTable.getD (Nat.log 1024 bytes) "undefined"

/-- Helper building a working-set entry the way `handleFileSelect` does,
with a given session id. -/
def mkFD (ident : String) (f : JsFile) : FileData :=
  { id := ident, file := f, size := f.size, preview := f.name }

/-- A codec that always succeeds with a 10-byte blob. -/
def constCodec : Codec := fun _ _ => some 10

/-- A codec on which every decode or encode fails. -/
def badCodec : Codec := fun _ _ => none

/-- A source file whose name has no extension. -/
def fooFile : JsFile := { name := "foo", type := "image/png", size := 100 }

/-- A source file with an ordinary extension. -/
def pngFile : JsFile := { name := "photo.png", type := "image/png", size := 100 }

/-- Scenario input files of the specification (sizes 1,000,000 / 500,000 /
250,000 bytes). -/
def scenarioFileA : JsFile := { name := "a.jpg", type := "image/jpeg", size := 1000000 }

def scenarioFileB : JsFile := { name := "b.jpg", type := "image/jpeg", size := 500000 }

def scenarioFileC : JsFile := { name := "c.jpg", type := "image/jpeg", size := 250000 }

/-- Scenario codec: encodes the three scenario files to 400,000 / 200,000 /
100,000 bytes. -/
def scenarioCodec : Codec := fun f _ =>
  if f.name = "a.jpg" then some 400000
  else if f.name = "b.jpg" then some 200000
  else some 100000

/-- Scenario working set before conversion. -/
def scenarioState : AppState :=
  { files := [mkFD "id1" scenarioFileA, mkFD "id2" scenarioFileB, mkFD "id3" scenarioFileC],
    converting := false, convertedFiles := [], quality := 95, progress := 0,
    stats := none }

/-- A single-file working set whose only conversion fails. -/
def oneBadState : AppState :=
  { files := [mkFD "id1" fooFile], converting := false, convertedFiles := [],
    quality := 95, progress := 0, stats := none }

/-- A two-file working set whose first conversion fails and whose second
would succeed. -/
def stallCodec : Codec := fun f _ => if f.name = "bad.png" then none else some 100

def stallFileBad : JsFile := { name := "bad.png", type := "image/png", size := 500 }

def stallFileGood : JsFile := { name := "good.png", type := "image/png", size := 300 }

def stallState : AppState :=
  { files := [mkFD "id1" stallFileBad, mkFD "id2" stallFileGood],
    converting := false, convertedFiles := [], quality := 95, progress := 0,
    stats := none }

/-- A batch of one zero-byte file that converts to a zero-byte blob. -/
def zeroCodec : Codec := fun _ _ => some 0

def zeroFile : JsFile := { name := "empty.png", type := "image/png", size := 0 }

def zeroState : AppState :=
  { files := [mkFD "id1" zeroFile], converting := false, convertedFiles := [],
    quality := 95, progress := 0, stats := none }

/-- A stale state left over from an earlier batch: nonempty converted
results, full progress and old statistics. -/
def staleResult : ConversionResult :=
  { original := scenarioFileA,
    converted := { name := "old.webp", type := "image/webp", size := 7 },
    originalSize := 11, convertedSize := 7, compressionRatio := "36.4" }

def priorState : AppState :=
  { files := [mkFD "id9" scenarioFileA], converting := false,
    convertedFiles := [staleResult], quality := 80, progress := 100,
    stats := some { totalFiles := 5, totalOriginalSize := 11, totalConvertedSize := 7,
                    totalSavings := 4, compressionRatio := "36.4" } }

/-- A state that is mid-batch: the convert button is disabled. -/
def busyState : AppState :=
  { files := [mkFD "id4" scenarioFileA], converting := true, convertedFiles := [],
    quality := 95, progress := 50, stats := none }

/-- Offered inputs for the C7 witness: an accepted JPEG, a non-image file
and an already-converted WebP file (upper-case extension). -/
def offeredOk : JsFile := { name := "new.jpg", type := "image/jpeg", size := 5 }

def offeredText : JsFile := { name := "notes.txt", type := "text/plain", size := 5 }

def offeredWebp : JsFile := { name := "done.WEBP", type := "image/webp", size := 5 }

/-- Conversion result of "photo.png" under the constant codec. -/
def pngResult : ConversionResult :=
  { original := pngFile,
    converted := { name := "photo.webp", type := "image/webp", size := 10 },
    originalSize := 100, convertedSize := 10, compressionRatio := "90.0" }

/-- Certificate that `ratioValue` is the literal division expression of
the source. -/
theorem ratioValue_eq_div (orig conv : Nat) :
    ratioValue orig conv = ((orig : ℚ) - (conv : ℚ)) / (orig : ℚ) * 100 := by
  rw [ratioValue, Rat.mkRat_eq_div]
  push_cast
  ring

/-- Certificate that `qualityFraction` is the literal division of the
source. -/
theorem qualityFraction_eq_div (quality : Nat) :
    qualityFraction quality = (quality : ℚ) / 100 := by
  rw [qualityFraction, Rat.mkRat_eq_div]
  norm_num

/-- Certificate that `progressValue` is the literal division expression of
the source. -/
theorem progressValue_eq_div (i n : Nat) :
    progressValue i n = ((i : ℚ) + 1) / (n : ℚ) * 100 := by
  rw [progressValue, Rat.mkRat_eq_div]
  push_cast
  ring

/-- Appending ".webp" to any prefix yields a name whose text after the
final dot is exactly "webp". -/
lemma extAfterLastDotChars_webp (l : List Char) :
    extAfterLastDotChars (l ++ ".webp".data) = some "webp" := by
  have hrev : (l ++ ".webp".data).reverse = ['p','b','e','w','.'] ++ l.reverse := by
    rw [List.reverse_append]
    rfl
  have htw : (l ++ ".webp".data).reverse.takeWhile (fun c => c != '.')
      = ['p','b','e','w'] := by
    rw [hrev]
    rfl
  rw [extAfterLastDotChars, htw]
  rw [if_pos]
  · rfl
  · simp [List.length_append]

/-- Behaviour of the extension replacement: when the regex matches, the
result's extension is "webp"; otherwise the name is unchanged. -/
lemma replaceExtWebp_spec (name : String) :
    (hasExtMatch name = true → extAfterLastDot (replaceExtWebp name) = some "webp") ∧
    (hasExtMatch name = false → replaceExtWebp name = name) := by
  constructor
  · intro h
    rw [replaceExtWebp]
    simp only [h, if_true]
    exact extAfterLastDotChars_webp _
  · intro h
    rw [replaceExtWebp]
    simp [h]

/-- The loop completes exactly when every remaining conversion resolves. -/
lemma convertLoop_completed (codec : Codec) (n quality : Nat) :
    ∀ (rest : List JsFile) (i : Nat) (s : AppState) (acc : List ConversionResult)
      (tO tC : Nat),
      (convertLoop codec n quality rest i s acc tO tC).completed =
        rest.all (fun f => (convertToWebP codec f quality).isResolved) := by
  intro rest
  induction rest with
  | nil => intro i s acc tO tC; simp [convertLoop]
  | cons f rest ih =>
      intro i s acc tO tC
      cases hf : convertToWebP codec f quality with
      | pending => simp [convertLoop, hf, PromiseState.isResolved]
      | resolved r => simp [convertLoop, hf, PromiseState.isResolved, ih]

/-- Structural description of one loop run: the collected results are the
accumulator followed by the resolved prefix, the totals are the starting
totals plus the sums over that prefix, and the last observable state keeps
every field of the starting state except `progress` and `convertedFiles`,
the latter extended by exactly the resolved prefix. -/
lemma convertLoop_spec (codec : Codec) (n quality : Nat) :
    ∀ (rest : List JsFile) (i : Nat) (s : AppState) (acc : List ConversionResult)
      (tO tC : Nat),
      (convertLoop codec n quality rest i s acc tO tC).results =
          acc ++ resolvedResults codec quality rest ∧
      (convertLoop codec n quality rest i s acc tO tC).totalOriginalSize =
          tO + sumOriginalSizes (resolvedResults codec quality rest) ∧
      (convertLoop codec n quality rest i s acc tO tC).totalConvertedSize =
          tC + sumConvertedSizes (resolvedResults codec quality rest) ∧
      (convertLoop codec n quality rest i s acc tO tC).final.convertedFiles =
          s.convertedFiles ++ resolvedResults codec quality rest ∧
      (convertLoop codec n quality rest i s acc tO tC).final.stats = s.stats ∧
      (convertLoop codec n quality rest i s acc tO tC).final.files = s.files ∧
      (convertLoop codec n quality rest i s acc tO tC).final.converting = s.converting ∧
      (convertLoop codec n quality rest i s acc tO tC).final.quality = s.quality := by
  intro rest
  induction rest with
  | nil =>
      intro i s acc tO tC
      simp [convertLoop, resolvedResults, sumOriginalSizes, sumConvertedSizes]
  | cons f rest ih =>
      intro i s acc tO tC
      cases hf : convertToWebP codec f quality with
      | pending =>
          simp [convertLoop, hf, resolvedResults, sumOriginalSizes, sumConvertedSizes]
      | resolved r =>
          have ihr := ih (i + 1)
            ({ { s with progress := progressValue i n } with
                convertedFiles :=
                  ({ s with progress := progressValue i n } : AppState).convertedFiles ++ [r] })
            (acc ++ [r]) (tO + r.originalSize) (tC + r.convertedSize)
          simp only [convertLoop, hf, resolvedResults] at ihr ⊢
          simp only [ihr.1, ihr.2.1, ihr.2.2.1, ihr.2.2.2.1, ihr.2.2.2.2.1,
            ihr.2.2.2.2.2.1, ihr.2.2.2.2.2.2.1, ihr.2.2.2.2.2.2.2]
          refine ⟨by simp, by simp [sumOriginalSizes, Nat.add_assoc],
            by simp [sumConvertedSizes, Nat.add_assoc], by simp, by trivial,
            by trivial, by trivial, by trivial⟩

/-- Along a run of the loop in which every conversion resolves, the
observed progress values form a non-decreasing chain from the entry
progress to the final progress, and the final progress is the fraction of
all items processed so far over the total. -/
lemma convertLoop_progress (codec : Codec) (quality n : Nat) (hn : 0 < n) :
    ∀ (rest : List JsFile) (i : Nat) (s : AppState) (acc : List ConversionResult)
      (tO tC : Nat),
      i + rest.length = n →
      s.progress = (i : ℚ) / (n : ℚ) * 100 →
      (∀ f ∈ rest, (convertToWebP codec f quality).isResolved = true) →
      List.Chain' (fun a b => a ≤ b)
        ((s.progress ::
            (convertLoop codec n quality rest i s acc tO tC).trace.map AppState.progress)
          ++ [(convertLoop codec n quality rest i s acc tO tC).final.progress]) ∧
      (convertLoop codec n quality rest i s acc tO tC).final.progress =
        ((i : ℚ) + (rest.length : ℚ)) / (n : ℚ) * 100 := by
  intro rest
  induction rest with
  | nil =>
      intro i s acc tO tC hin hs hall
      constructor
      · simp [convertLoop]
      · simp [convertLoop, hs]
  | cons f rest ih =>
      intro i s acc tO tC hin hs hall
      cases hres : convertToWebP codec f quality with
      | pending =>
          have hf := hall f (List.mem_cons_self f rest)
          rw [hres] at hf
          simp [PromiseState.isResolved] at hf
      | resolved r =>
          have hall' : ∀ g ∈ rest, (convertToWebP codec g quality).isResolved = true :=
            fun g hg => hall g (List.mem_cons_of_mem f hg)
          have hin' : (i + 1) + rest.length = n := by
            simp only [List.length_cons] at hin
            omega
          have hs2p :
              ({ { s with progress := progressValue i n } with
                  convertedFiles :=
                    ({ s with progress := progressValue i n } : AppState).convertedFiles
                      ++ [r] } : AppState).progress
                = ((i + 1 : Nat) : ℚ) / (n : ℚ) * 100 := by
            show progressValue i n = ((i + 1 : Nat) : ℚ) / (n : ℚ) * 100
            rw [progressValue_eq_div]
            push_cast
            ring
          have IH := ih (i + 1)
            ({ { s with progress := progressValue i n } with
                convertedFiles :=
                  ({ s with progress := progressValue i n } : AppState).convertedFiles
                    ++ [r] })
            (acc ++ [r]) (tO + r.originalSize) (tC + r.convertedSize) hin' hs2p hall'
          constructor
          · simp only [convertLoop, hres, List.map_cons, List.cons_append]
            rw [List.chain'_cons]
            constructor
            · rw [hs]
              show (i : ℚ) / (n : ℚ) * 100 ≤ progressValue i n
              rw [progressValue_eq_div]
              have hnq : (0 : ℚ) < (n : ℚ) := by exact_mod_cast hn
              have h1 : (i : ℚ) / (n : ℚ) ≤ ((i : ℚ) + 1) / (n : ℚ) :=
                div_le_div_of_nonneg_right (by linarith) hnq.le
              exact mul_le_mul_of_nonneg_right h1 (by norm_num)
            · rw [List.chain'_cons]
              refine ⟨le_refl _, ?_⟩
              have := IH.1
              simpa using this
          · simp only [convertLoop, hres]
            rw [IH.2]
            push_cast [List.length_cons]
            ring

/-- AMENDED C1: over a non-empty working set on which every conversion
resolves, the progress values observed from the reset onward form a
non-decreasing chain and the final progress is exactly 100. -/
theorem convertAllFiles_progress (codec : Codec) (s : AppState)
    (hne : s.files ≠ [])
    (hall : ∀ fd ∈ s.files, (convertToWebP codec fd.file s.quality).isResolved = true) :
    List.Chain' (fun a b => a ≤ b)
      (((convertAllFilesRun codec s).trace.map AppState.progress).drop 1) ∧
    (convertAllFilesRun codec s).final.progress = 100 := by
  have hlen : s.files.length ≠ 0 := by simpa [List.length_eq_zero] using hne
  have hn : 0 < s.files.length := Nat.pos_of_ne_zero hlen
  have hallmap : ∀ f ∈ s.files.map FileData.file,
      (convertToWebP codec f s.quality).isResolved = true := by
    intro f hf
    obtain ⟨fd, hfd, rfl⟩ := List.mem_map.mp hf
    exact hall fd hfd
  have hcomp : (batchLoopOut codec s).completed = true := by
    simp only [batchLoopOut]
    rw [convertLoop_completed]
    exact List.all_eq_true.mpr hallmap
  have hC0 : (stateC s).progress = ((0 : Nat) : ℚ) / (s.files.length : ℚ) * 100 := by
    simp [stateC, stateB, stateA]
  have hloop := convertLoop_progress codec s.quality s.files.length hn
    (s.files.map FileData.file) 0 (stateC s) [] 0 0 (by simp) hC0 hallmap
  have h100 : (batchLoopOut codec s).final.progress = 100 := by
    simp only [batchLoopOut]
    rw [hloop.2, List.length_map]
    rw [Nat.cast_zero, zero_add, div_self (by exact_mod_cast hlen), one_mul]
  have hch : List.Chain' (fun a b => a ≤ b)
      (((0 : ℚ) :: (batchLoopOut codec s).trace.map AppState.progress)
        ++ [(batchLoopOut codec s).final.progress]) := by
    have hthis := hloop.1
    rw [hC0, Nat.cast_zero, zero_div, zero_mul] at hthis
    exact hthis
  rw [h100] at hch
  constructor
  · simp only [convertAllFilesRun, if_neg hlen, hcomp, if_true]
    simp only [List.map_cons, List.map_append, List.map_nil, List.drop_succ_cons,
      List.drop_zero]
    rw [h100]
    have h2 : List.Chain' (fun a b : ℚ => a ≤ b)
        ((((0 : ℚ) :: (batchLoopOut codec s).trace.map AppState.progress) ++ [(100 : ℚ)])
          ++ [(100 : ℚ)]) := by
      rw [List.chain'_append]
      refine ⟨hch, List.chain'_singleton _, ?_⟩
      intro x hx y hy
      rw [List.getLast?_concat] at hx
      simp only [List.head?_cons, Option.mem_def, Option.some.injEq] at hx hy
      rw [← hx, ← hy]
    rw [List.chain'_cons]
    constructor
    · exact le_refl 0
    · simpa [List.append_assoc] using h2
  · simp only [convertAllFilesRun, if_neg hlen, hcomp, if_true]
    exact h100

/-- COUNTEREXAMPLE to C1: a one-item batch whose item fails.  The item is
attempted (the codec fails on it), yet every observed progress value is 0
and the run's last progress is 0, not 100: progress never reaches 100%. -/
theorem convertAllFiles_progress_counterexample :
    (convertAllFilesRun badCodec oneBadState).trace.map AppState.progress = [0, 0, 0] ∧
    (convertAllFilesRun badCodec oneBadState).final.progress = 0 ∧
    ¬ (convertAllFilesRun badCodec oneBadState).final.progress = 100 := by
  decide

/-- Witness for the amended C1 at the three-file scenario. -/
theorem convertAllFiles_progress_witness :
    List.Chain' (fun a b => a ≤ b)
      (((convertAllFilesRun scenarioCodec scenarioState).trace.map AppState.progress).drop 1) ∧
    (convertAllFilesRun scenarioCodec scenarioState).final.progress = 100 :=
  convertAllFiles_progress scenarioCodec scenarioState (by decide) (by decide)

/-- C2 evaluation: when the first item's encode yields no blob, its promise
is pending (no `ConversionFailure` value exists anywhere), the batch never
completes, no failure is recorded, the second (convertible) item is never
processed, and the run is left with `converting = true` and no stats. -/
theorem convertToWebP_failure_stalls_batch :
    convertToWebP stallCodec stallFileBad 95 = PromiseState.pending ∧
    (convertAllFilesRun stallCodec stallState).completed = false ∧
    (convertAllFilesRun stallCodec stallState).results = [] ∧
    (convertAllFilesRun stallCodec stallState).final.convertedFiles = [] ∧
    (convertAllFilesRun stallCodec stallState).final.converting = true ∧
    (convertAllFilesRun stallCodec stallState).final.stats = none := by
  decide

/-- C3 evaluation: a completed batch with `totalOriginalSize = 0` stores
the compression ratio "NaN" — the unguarded `(0 - 0) / 0 * 100` — rather
than a defined numeric sentinel. -/
theorem batchStats_nan_example :
    (convertAllFilesRun zeroCodec zeroState).completed = true ∧
    (convertAllFilesRun zeroCodec zeroState).final.stats =
      some { totalFiles := 1, totalOriginalSize := 0, totalConvertedSize := 0,
             totalSavings := 0, compressionRatio := "NaN" } := by
  decide

/-- C4: for every completed batch, the stored `Stats` record has
`totalFiles` equal to the number of attempted input items, size totals
equal to the sums over the collected (successful) results, savings exactly
the difference of the totals, and the compression ratio rendered from
`(o - c) / o * 100` to one decimal place. -/
theorem batchStats_formula (codec : Codec) (s : AppState)
    (hc : (convertAllFilesRun codec s).completed = true) :
    (convertAllFilesRun codec s).final.stats = some
      { totalFiles := s.files.length,
        totalOriginalSize := sumOriginalSizes (convertAllFilesRun codec s).results,
        totalConvertedSize := sumConvertedSizes (convertAllFilesRun codec s).results,
        totalSavings := (sumOriginalSizes (convertAllFilesRun codec s).results : Int) -
          (sumConvertedSizes (convertAllFilesRun codec s).results : Int),
        compressionRatio := jsRatioFixed1
          (sumOriginalSizes (convertAllFilesRun codec s).results)
          (sumConvertedSizes (convertAllFilesRun codec s).results) } ∧
    (sumOriginalSizes (convertAllFilesRun codec s).results ≠ 0 →
      jsRatioFixed1 (sumOriginalSizes (convertAllFilesRun codec s).results)
          (sumConvertedSizes (convertAllFilesRun codec s).results) =
        toFixed1 (((sumOriginalSizes (convertAllFilesRun codec s).results : ℚ) -
            (sumConvertedSizes (convertAllFilesRun codec s).results : ℚ)) /
          (sumOriginalSizes (convertAllFilesRun codec s).results : ℚ) * 100)) := by
  by_cases hlen : s.files.length = 0
  · rw [convertAllFilesRun, if_pos hlen] at hc
    simp at hc
  · by_cases hcomp : (batchLoopOut codec s).completed = true
    · have hspec := convertLoop_spec codec s.files.length s.quality
        (s.files.map FileData.file) 0 (stateC s) [] 0 0
      have hres : (convertAllFilesRun codec s).results =
          resolvedResults codec s.quality (s.files.map FileData.file) := by
        simp only [convertAllFilesRun, if_neg hlen, hcomp, if_true]
        have h1 : (batchLoopOut codec s).results =
            [] ++ resolvedResults codec s.quality (s.files.map FileData.file) := hspec.1
        simpa using h1
      have htO : (batchLoopOut codec s).totalOriginalSize =
          sumOriginalSizes (convertAllFilesRun codec s).results := by
        rw [hres]
        have h2 : (batchLoopOut codec s).totalOriginalSize =
            0 + sumOriginalSizes (resolvedResults codec s.quality
              (s.files.map FileData.file)) := hspec.2.1
        simpa using h2
      have htC : (batchLoopOut codec s).totalConvertedSize =
          sumConvertedSizes (convertAllFilesRun codec s).results := by
        rw [hres]
        have h3 : (batchLoopOut codec s).totalConvertedSize =
            0 + sumConvertedSizes (resolvedResults codec s.quality
              (s.files.map FileData.file)) := hspec.2.2.1
        simpa using h3
      have hstats : (convertAllFilesRun codec s).final.stats =
          some (finishStats s (batchLoopOut codec s)) := by
        simp only [convertAllFilesRun, if_neg hlen, hcomp, if_true]
      constructor
      · rw [hstats, finishStats, htO, htC]
      · intro h0
        rw [jsRatioFixed1, if_neg h0, ratioValue_eq_div]
    · exfalso
      have hcf : (batchLoopOut codec s).completed = false := by
        revert hcomp
        cases (batchLoopOut codec s).completed <;> simp
      rw [convertAllFilesRun, if_neg hlen] at hc
      simp only [hcf, Bool.false_eq_true, if_false] at hc

/-- Witness for C4 at the specification's three-file scenario, with the
ratio evaluating to "60.0". -/
theorem batchStats_formula_witness :
    (convertAllFilesRun scenarioCodec scenarioState).completed = true ∧
    (convertAllFilesRun scenarioCodec scenarioState).final.stats = some
      { totalFiles := scenarioState.files.length,
        totalOriginalSize := sumOriginalSizes (convertAllFilesRun scenarioCodec scenarioState).results,
        totalConvertedSize := sumConvertedSizes (convertAllFilesRun scenarioCodec scenarioState).results,
        totalSavings := (sumOriginalSizes (convertAllFilesRun scenarioCodec scenarioState).results : Int) -
          (sumConvertedSizes (convertAllFilesRun scenarioCodec scenarioState).results : Int),
        compressionRatio := jsRatioFixed1
          (sumOriginalSizes (convertAllFilesRun scenarioCodec scenarioState).results)
          (sumConvertedSizes (convertAllFilesRun scenarioCodec scenarioState).results) } ∧
    sumOriginalSizes (convertAllFilesRun scenarioCodec scenarioState).results = 1750000 ∧
    sumConvertedSizes (convertAllFilesRun scenarioCodec scenarioState).results = 700000 ∧
    jsRatioFixed1 1750000 700000 = "60.0" :=
  ⟨by decide, (batchStats_formula scenarioCodec scenarioState (by decide)).1,
    by decide, by decide, by decide⟩

/-- C9: invoking the pipeline on a non-empty working set empties the
result collection and resets progress to 0 before the first item is
processed (third trace snapshot), the final result collection is a
function of the working set, the quality and the codec alone — the
resolved prefix of this batch — and the stats of a completed batch are
computed from those results alone.  No value from an earlier batch
survives into either. -/
theorem freshBatch_spec (codec : Codec) (s : AppState) (hne : s.files ≠ []) :
    (∀ t, (convertAllFilesRun codec s).trace.get? 2 = some t →
        t.convertedFiles = [] ∧ t.progress = 0) ∧
    (convertAllFilesRun codec s).final.convertedFiles =
      resolvedResults codec s.quality (s.files.map FileData.file) ∧
    ((convertAllFilesRun codec s).completed = true →
      (convertAllFilesRun codec s).final.stats = some
        { totalFiles := s.files.length,
          totalOriginalSize :=
            sumOriginalSizes (resolvedResults codec s.quality (s.files.map FileData.file)),
          totalConvertedSize :=
            sumConvertedSizes (resolvedResults codec s.quality (s.files.map FileData.file)),
          totalSavings :=
            (sumOriginalSizes (resolvedResults codec s.quality (s.files.map FileData.file)) : Int) -
            (sumConvertedSizes (resolvedResults codec s.quality (s.files.map FileData.file)) : Int),
          compressionRatio := jsRatioFixed1
            (sumOriginalSizes (resolvedResults codec s.quality (s.files.map FileData.file)))
            (sumConvertedSizes (resolvedResults codec s.quality (s.files.map FileData.file))) }) := by
  have hlen : s.files.length ≠ 0 := by simpa [List.length_eq_zero] using hne
  have hspec := convertLoop_spec codec s.files.length s.quality
    (s.files.map FileData.file) 0 (stateC s) [] 0 0
  have hCfiles : (stateC s).convertedFiles = [] := by simp [stateC, stateB, stateA]
  have hCprog : (stateC s).progress = 0 := by simp [stateC, stateB, stateA]
  by_cases hcomp : (batchLoopOut codec s).completed = true
  · have htrace : (convertAllFilesRun codec s).trace.get? 2 = some (stateC s) := by
      rw [convertAllFilesRun, if_neg hlen, if_pos hcomp]
      rfl
    refine ⟨?_, ?_, ?_⟩
    · intro t ht
      rw [htrace] at ht
      obtain rfl : stateC s = t := Option.some.inj ht
      exact ⟨hCfiles, hCprog⟩
    · simp only [convertAllFilesRun, if_neg hlen, hcomp, if_true]
      have h4 : (batchLoopOut codec s).final.convertedFiles =
          (stateC s).convertedFiles ++
            resolvedResults codec s.quality (s.files.map FileData.file) := hspec.2.2.2.1
      rw [hCfiles] at h4
      simpa using h4
    · intro _
      have hstats : (convertAllFilesRun codec s).final.stats =
          some (finishStats s (batchLoopOut codec s)) := by
        simp only [convertAllFilesRun, if_neg hlen, hcomp, if_true]
      have htO : (batchLoopOut codec s).totalOriginalSize =
          sumOriginalSizes (resolvedResults codec s.quality (s.files.map FileData.file)) := by
        have := hspec.2.1
        simpa using this
      have htC : (batchLoopOut codec s).totalConvertedSize =
          sumConvertedSizes (resolvedResults codec s.quality (s.files.map FileData.file)) := by
        have := hspec.2.2.1
        simpa using this
      rw [hstats, finishStats, htO, htC]
  · have hcf : (batchLoopOut codec s).completed = false := by
      revert hcomp
      cases (batchLoopOut codec s).completed <;> simp
    have htrace : (convertAllFilesRun codec s).trace.get? 2 = some (stateC s) := by
      rw [convertAllFilesRun, if_neg hlen, if_neg hcomp]
      rfl
    refine ⟨?_, ?_, ?_⟩
    · intro t ht
      rw [htrace] at ht
      obtain rfl : stateC s = t := Option.some.inj ht
      exact ⟨hCfiles, hCprog⟩
    · simp only [convertAllFilesRun, if_neg hlen, hcf, Bool.false_eq_true, if_false]
      have h4 : (batchLoopOut codec s).final.convertedFiles =
          (stateC s).convertedFiles ++
            resolvedResults codec s.quality (s.files.map FileData.file) := hspec.2.2.2.1
      rw [hCfiles] at h4
      simpa using h4
    · intro hc
      exfalso
      rw [convertAllFilesRun, if_neg hlen] at hc
      simp only [hcf, Bool.false_eq_true, if_false] at hc

/-- Witness for C9: rerunning over a state holding stale results and stats
resets the collection and rebuilds both purely from the new batch. -/
theorem freshBatch_spec_witness :
    ((stateC priorState).convertedFiles = [] ∧ (stateC priorState).progress = 0) ∧
    (convertAllFilesRun scenarioCodec priorState).final.convertedFiles =
      resolvedResults scenarioCodec priorState.quality (priorState.files.map FileData.file) ∧
    (convertAllFilesRun scenarioCodec priorState).final.stats = some
      { totalFiles := priorState.files.length,
        totalOriginalSize :=
          sumOriginalSizes (resolvedResults scenarioCodec priorState.quality
            (priorState.files.map FileData.file)),
        totalConvertedSize :=
          sumConvertedSizes (resolvedResults scenarioCodec priorState.quality
            (priorState.files.map FileData.file)),
        totalSavings :=
          (sumOriginalSizes (resolvedResults scenarioCodec priorState.quality
            (priorState.files.map FileData.file)) : Int) -
          (sumConvertedSizes (resolvedResults scenarioCodec priorState.quality
            (priorState.files.map FileData.file)) : Int),
        compressionRatio := jsRatioFixed1
          (sumOriginalSizes (resolvedResults scenarioCodec priorState.quality
            (priorState.files.map FileData.file)))
          (sumConvertedSizes (resolvedResults scenarioCodec priorState.quality
            (priorState.files.map FileData.file))) } := by
  have h := freshBatch_spec scenarioCodec priorState (by decide)
  exact ⟨h.1 (stateC priorState) (by decide), h.2.1, h.2.2 (by decide)⟩

/-- C6: the pipeline enters Running (`converting = true`) only from a
non-empty working set — an empty set produces no observable transition —
and a click on the convert button while a batch is Running is a no-op
because the button is disabled. -/
theorem clickConvert_state_machine (codec : Codec) (s : AppState) :
    (s.files = [] → clickConvertRun codec s =
      { trace := [], final := s, completed := false, results := [],
        totalOriginalSize := 0, totalConvertedSize := 0 }) ∧
    (∀ t ∈ (clickConvertRun codec s).trace, t.converting = true → s.files ≠ []) ∧
    (s.converting = true → clickConvertRun codec s =
      { trace := [], final := s, completed := false, results := [],
        totalOriginalSize := 0, totalConvertedSize := 0 }) := by
  refine ⟨?_, ?_, ?_⟩
  · intro hempty
    rw [clickConvertRun]
    by_cases hb : s.converting
    · rw [if_pos hb]
    · rw [if_neg hb, convertAllFilesRun, if_pos (by simp [hempty])]
  · intro t ht _
    intro hempty
    rw [clickConvertRun] at ht
    by_cases hb : s.converting
    · rw [if_pos hb] at ht
      simp at ht
    · rw [if_neg hb, convertAllFilesRun, if_pos (by simp [hempty])] at ht
      simp at ht
  · intro hb
    rw [clickConvertRun, if_pos hb]

/-- Witness for C6: clicking convert while Running changes nothing. -/
theorem clickConvert_state_machine_witness :
    clickConvertRun constCodec busyState =
      { trace := [], final := busyState, completed := false, results := [],
        totalOriginalSize := 0, totalConvertedSize := 0 } :=
  (clickConvert_state_machine constCodec busyState).2.2 rfl

/-- C10: removing a file removes exactly the entries whose id equals the
given id, keeps the remaining entries in order (the new list is the filter
of the old, hence a sublist), and leaves results, stats, progress, quality
and the converting flag unchanged. -/
theorem removeFile_spec (s : AppState) (fileId : String) :
    (removeFile s fileId).files = s.files.filter (fun f => f.id != fileId) ∧
    (∀ f ∈ s.files, (f ∈ (removeFile s fileId).files ↔ f.id ≠ fileId)) ∧
    (removeFile s fileId).files.Sublist s.files ∧
    (removeFile s fileId).convertedFiles = s.convertedFiles ∧
    (removeFile s fileId).stats = s.stats ∧
    (removeFile s fileId).progress = s.progress ∧
    (removeFile s fileId).quality = s.quality ∧
    (removeFile s fileId).converting = s.converting := by
  refine ⟨rfl, ?_, ?_, rfl, rfl, rfl, rfl, rfl⟩
  · intro f hf
    constructor
    · intro hmem
      have := List.mem_filter.mp hmem
      simpa using this.2
    · intro hid
      exact List.mem_filter.mpr ⟨hf, by simpa using hid⟩
  · exact List.filter_sublist s.files

/-- Witness for C10 at a concrete state: the entry with the removed id is
gone, the other entries remain, and every other field is untouched. -/
theorem removeFile_spec_witness :
    (removeFile priorState "id9").files =
      priorState.files.filter (fun f => f.id != "id9") ∧
    (mkFD "id9" scenarioFileA ∈ (removeFile priorState "id9").files ↔
      (mkFD "id9" scenarioFileA).id ≠ "id9") ∧
    (removeFile priorState "id9").files.Sublist priorState.files ∧
    (removeFile priorState "id9").convertedFiles = priorState.convertedFiles ∧
    (removeFile priorState "id9").stats = priorState.stats ∧
    (removeFile priorState "id9").progress = priorState.progress ∧
    (removeFile priorState "id9").quality = priorState.quality ∧
    (removeFile priorState "id9").converting = priorState.converting := by
  have h := removeFile_spec priorState "id9"
  exact ⟨h.1, h.2.1 (mkFD "id9" scenarioFileA) (by decide), h.2.2.1, h.2.2.2.1,
    h.2.2.2.2.1, h.2.2.2.2.2.1, h.2.2.2.2.2.2.1, h.2.2.2.2.2.2.2⟩

/-- C7: accepting a selection appends to the working set exactly the
offered files whose declared MIME type begins with "image/" and whose
lower-cased name does not end in ".webp", in their offered order; every
other offered item is dropped; a null selection changes nothing. -/
theorem handleFileSelect_filter (s : AppState) (selected : List JsFile)
    (mkId : Nat → String) (mkPreview : JsFile → String) :
    (handleFileSelect s (some selected) mkId mkPreview).files.map FileData.file =
        s.files.map FileData.file ++ selected.filter acceptFile ∧
    (∀ f : JsFile,
        f ∈ (handleFileSelect s (some selected) mkId mkPreview).files.map FileData.file ↔
          f ∈ s.files.map FileData.file ∨
            (f ∈ selected ∧ strStartsWith f.type "image/" = true ∧
              strEndsWith (strToLower f.name) ".webp" = false)) ∧
    handleFileSelect s none mkId mkPreview = s := by
  have hmain : (handleFileSelect s (some selected) mkId mkPreview).files.map FileData.file =
      s.files.map FileData.file ++ selected.filter acceptFile := by
    show ((s.files ++ _).map FileData.file) = _
    rw [List.map_append]
    congr 1
    rw [List.map_map]
    show (selected.filter acceptFile).enum.map (fun p => p.2) = selected.filter acceptFile
    exact List.enum_map_snd _
  refine ⟨hmain, ?_, rfl⟩
  intro f
  rw [hmain, List.mem_append, List.mem_filter]
  constructor
  · rintro (h | ⟨h1, h2⟩)
    · exact Or.inl h
    · refine Or.inr ⟨h1, ?_, ?_⟩
      · have := h2
        rw [acceptFile] at this
        exact (Bool.and_eq_true _ _).mp this |>.1
      · have := h2
        rw [acceptFile] at this
        have hb := (Bool.and_eq_true _ _).mp this |>.2
        simpa using hb
  · rintro (h | ⟨h1, h2, h3⟩)
    · exact Or.inl h
    · refine Or.inr ⟨h1, ?_⟩
      rw [acceptFile]
      rw [Bool.and_eq_true]
      exact ⟨h2, by simp [h3]⟩

/-- Witness for C7: of the three offered files only the JPEG survives the
filter and is appended; the null selection leaves the state unchanged. -/
theorem handleFileSelect_filter_witness :
    (handleFileSelect scenarioState (some [offeredOk, offeredText, offeredWebp])
        (fun _ => "idN") (fun f => f.name)).files.map FileData.file =
      scenarioState.files.map FileData.file ++
        [offeredOk, offeredText, offeredWebp].filter acceptFile ∧
    [offeredOk, offeredText, offeredWebp].filter acceptFile = [offeredOk] ∧
    handleFileSelect scenarioState none (fun _ => "idN") (fun f => f.name) =
      scenarioState := by
  have h := handleFileSelect_filter scenarioState [offeredOk, offeredText, offeredWebp]
    (fun _ => "idN") (fun f => f.name)
  exact ⟨h.1, by decide, h.2.2⟩

/-- AMENDED C5: a successful conversion names its output by the regex
replacement: when the source name has a final extension (a dot followed by
one or more characters, none a dot or slash, ending the name) the output
name's extension is "webp"; when it has none, the output name is the
source name unchanged — its extension is not "webp". -/
theorem convert_outputName (codec : Codec) (file : JsFile) (quality : Nat)
    (r : ConversionResult)
    (h : convertToWebP codec file quality = PromiseState.resolved r) :
    r.converted.name = replaceExtWebp file.name ∧
    (hasExtMatch file.name = true → extAfterLastDot r.converted.name = some "webp") ∧
    (hasExtMatch file.name = false → r.converted.name = file.name) := by
  have hname : r.converted.name = replaceExtWebp file.name := by
    rw [convertToWebP] at h
    cases hc : codec file (qualityFraction quality) with
    | none =>
        rw [hc] at h
        cases h
    | some blobSize =>
        rw [hc] at h
        have := (PromiseState.resolved.injEq _ _).mp h
        rw [← this]
  refine ⟨hname, ?_, ?_⟩
  · intro hm
    rw [hname]
    exact (replaceExtWebp_spec file.name).1 hm
  · intro hm
    rw [hname]
    exact (replaceExtWebp_spec file.name).2 hm

/-- COUNTEREXAMPLE to C5: converting a file named "foo" (valid quality 95)
succeeds, but the output name is "foo" — the regex does not match a name
without an extension, so nothing is replaced and the output's extension is
not "webp" (it has no extension at all). -/
theorem convert_outputName_counterexample :
    convertToWebP constCodec fooFile 95 = PromiseState.resolved
      { original := fooFile,
        converted := { name := "foo", type := "image/webp", size := 10 },
        originalSize := 100, convertedSize := 10, compressionRatio := "90.0" } ∧
    extAfterLastDot "foo" = none ∧
    ¬ extAfterLastDot "foo" = some "webp" := by
  decide

/-- Witness for the amended C5 at "photo.png". -/
theorem convert_outputName_witness :
    pngResult.converted.name = replaceExtWebp pngFile.name ∧
    extAfterLastDot pngResult.converted.name = some "webp" := by
  have h := convert_outputName constCodec pngFile 95 pngResult (by decide)
  exact ⟨h.1, h.2.1 (by decide)⟩

/-- C8: the unit table of the Size Formatter is safely indexed exactly for
byte counts below 1024^4; from 1024^4 on, the computed index exceeds the
last entry ("GB", index 3) and the rendered string carries the
out-of-bounds unit "undefined". -/
theorem formatFileSize_overflow (b : Nat) :
    (b < 1024 ^ 4 → Nat.log 1024 b ≤ 3) ∧
    (1024 ^ 4 ≤ b → 3 < Nat.log 1024 b ∧
      formatFileSize b =
        parseFloatFixed2 (mkRat b (1024 ^ Nat.log 1024 b)) ++ " " ++ "undefined") := by
  constructor
  · intro hb
    by_cases h0 : b = 0
    · simp [h0]
    · by_contra hlog
      push_neg at hlog
      have h4 : 4 ≤ Nat.log 1024 b := hlog
      have hp := Nat.pow_log_le_self 1024 h0
      have hm : (1024 : ℕ) ^ 4 ≤ 1024 ^ Nat.log 1024 b :=
        Nat.pow_le_pow_right (by norm_num) h4
      exact absurd hb (not_lt.mpr (le_trans hm hp))
  · intro hb
    have h0 : b ≠ 0 := by
      have hpos : (0 : ℕ) < 1024 ^ 4 := by norm_num
      omega
    have h4 : 4 ≤ Nat.log 1024 b := (Nat.pow_le_iff_le_log (by norm_num) h0).mp hb
    refine ⟨by omega, ?_⟩
    rw [formatFileSize, if_neg h0]
    congr 1
    obtain ⟨k, hk⟩ : ∃ k, Nat.log 1024 b = k + 4 := ⟨Nat.log 1024 b - 4, by omega⟩
    rw [hk]
    rfl

/-- Witness for C8 at the first unsafe byte count, 1024^4. -/
theorem formatFileSize_overflow_witness :
    3 < Nat.log 1024 (1024 ^ 4) ∧
    formatFileSize (1024 ^ 4) =
      parseFloatFixed2 (mkRat (1024 ^ 4) (1024 ^ Nat.log 1024 (1024 ^ 4))) ++ " " ++
        "undefined" :=
  (formatFileSize_overflow (1024 ^ 4)).2 (le_refl (1024 ^ 4))

end WebP
